import Mathlib

/-!
# nubmq engine: the read path and the line rewriting of the client

A shallow embedding of `getter.go` (`getAtIndex`, `_getKey`), of the two
package-level keepers of `minimal_engine.go`, and of the body of the input
loop of `client/main.go`.

Conventions of the embedding.

* Go `int` and `int64` are `Int`; where the code can overflow the wrap to
  64 bits is written out (`wrapInt64`).
* A run-time panic is a `Fault`; a function that can panic returns an
  `Except Fault _` inside an `Outcome`.
* Every `sync.RWMutex` is the number of read locks currently held on it.  The
  counters of all mutexes live in one table of the state (`Globals.readers`),
  addressed by the owner of the mutex.
* A piece of code is a state transformer `M α`: it maps the state before to
  the result, the state after and the lock operations it performed, in order.
* `fmt.Println` and `log.Print` only write to the terminal and are left out.
* An input line of the client is a `String`, a sequence of Unicode code points;
  the gob encoding and the connection are outside the embedding.
-/

namespace NubMQ

/-! ## Data model -/

/-- Modelled from the spec: the declaration of `Entry` is outside the files
read here.  `getter.go` reads the field `value` as a `string`; the expiry is
`expiresAt: absolute timestamp | never` of the spec. -/
structure Entry where
  value : String
  expiresAt : Option Int
deriving DecidableEq

/-- What the `sync.Map` of a shard holds under a key: the map is typed `any`, so a
stored value is an `Entry` or something on which `value.(Entry)` panics. -/
inductive Stored where
  | entry (e : Entry)
  | foreign
deriving DecidableEq

/-- Modelled from the spec: the declaration of `Shard` is outside the files
read here.  `getter.go` uses the field `data` through `Load(key)`. -/
structure Shard where
  data : String → Option Stored

/-- Modelled from the spec: the declaration of `ShardManager` is outside the
files read here.  `getter.go` uses `Shards` (a slice of shard pointers, `none`
is a nil pointer) and `mutex` (kept in `Globals.readers`). -/
structure ShardManager where
  Shards : List (Option Shard)

/-- Modelled from the spec: the declaration of `ShardManagerKeeperTemp` is
outside the files read here; its fields are those of the two composite
literals of `minimal_engine.go`, a nil manager pointer is `none`, and `mutex`
is kept in `Globals.readers`. -/
structure ShardManagerKeeperTemp where
  ShardManagers : List (Option ShardManager)
  totalCapacity : Int
  usedCapacity : Int
  isResizing : Int

/-- A pointer to one of the two package-level keepers. -/
inductive KeeperRef where
  | ShardManagerKeeper
  | newShardManagerKeeper
deriving DecidableEq

/-- The owner of a `sync.RWMutex`: a keeper, or the shard manager in a slot
of a keeper. -/
inductive MutexId where
  | keeper (k : KeeperRef)
  | manager (k : KeeperRef) (slot : Nat)
deriving DecidableEq

/-- The package-level variables of `minimal_engine.go` together with the
read-lock counters of every mutex reachable from them. -/
structure Globals where
  ShardManagerKeeper : ShardManagerKeeperTemp
  newShardManagerKeeper : ShardManagerKeeperTemp
  readers : MutexId → Nat

/-- Dereference a keeper pointer. -/
def Globals.keeper (G : Globals) : KeeperRef → ShardManagerKeeperTemp
  | .ShardManagerKeeper => G.ShardManagerKeeper
  | .newShardManagerKeeper => G.newShardManagerKeeper

/-- The initial value of both keepers in `minimal_engine.go`:
`make([]*ShardManager, 0)` and three zeros. -/
def emptyKeeper : ShardManagerKeeperTemp :=
  { ShardManagers := [], totalCapacity := 0, usedCapacity := 0, isResizing := 0 }

/-- Modelled from the spec: `getKeyHash` and `getShardNumberAndIndexPair` are
called by `getter.go` and declared outside the files read here.  Spec 4.1
makes the router pure, deterministic and free of errors, so both are taken as
total functions; nothing else is assumed of them. -/
structure HashRouter where
  getKeyHash : String → ShardManagerKeeperTemp → Int
  getShardNumberAndIndexPair : Int → Int × Int

/-! ## Faults, lock operations and the state transformer -/

/-- The run-time panics the read path can raise. -/
inductive Fault where
  | indexOutOfRange
  | nilDereference
  | typeAssertion
deriving DecidableEq

/-- One operation on a read/write mutex. -/
inductive LockOp where
  | RLock (m : MutexId)
  | RUnlock (m : MutexId)
deriving DecidableEq

/-- The effect of one lock operation on the table of counters. -/
def applyOp (readers : MutexId → Nat) : LockOp → MutexId → Nat
  | .RLock m => Function.update readers m (readers m + 1)
  | .RUnlock m => Function.update readers m (readers m - 1)

/-- What a piece of code leaves behind: its result or panic, the state at
that moment, and the lock operations performed up to it. -/
structure Outcome (α : Type) where
  result : Except Fault α
  state : Globals
  ops : List LockOp

/-- A piece of code of the engine. -/
def M (α : Type) : Type := Globals → Outcome α

/-- Return a value without touching the state. -/
def M.pure {α : Type} (a : α) : M α := fun G => ⟨.ok a, G, []⟩

/-- Sequencing: a panic of the first part ends the run where it stands. -/
def M.bind {α β : Type} (x : M α) (f : α → M β) : M β := fun G =>
  match (x G).result with
  | .error e => ⟨.error e, (x G).state, (x G).ops⟩
  | .ok a => ⟨(f a (x G).state).result, (f a (x G).state).state, (x G).ops ++ (f a (x G).state).ops⟩

instance : Monad M where
  pure := M.pure
  bind := M.bind

/-- Raise a panic. -/
def raise {α : Type} (e : Fault) : M α := fun G => ⟨.error e, G, []⟩

/-- Read a keeper through its pointer. -/
def load (k : KeeperRef) : M ShardManagerKeeperTemp := fun G => ⟨.ok (G.keeper k), G, []⟩

/-- The call `mutex.RLock()`. -/
def RLock (m : MutexId) : M Unit := fun G =>
  ⟨.ok (), { G with readers := applyOp G.readers (.RLock m) }, [.RLock m]⟩

/-- The call `mutex.RUnlock()`. -/
def RUnlock (m : MutexId) : M Unit := fun G =>
  ⟨.ok (), { G with readers := applyOp G.readers (.RUnlock m) }, [.RUnlock m]⟩

/-- Go slice indexing `xs[i]` as a value: nothing outside `0 ≤ i < len(xs)`. -/
def index? {α : Type} (xs : List α) (i : Int) : Option α :=
  if 0 ≤ i then xs[i.toNat]? else none

/-- Go slice indexing `xs[i]`: panics outside `0 ≤ i < len(xs)`. -/
def slice {α : Type} (xs : List α) (i : Int) : M α :=
  match index? xs i with
  | some a => pure a
  | none => raise .indexOutOfRange

/-- Going through a pointer: panics on nil. -/
def deref {α : Type} : Option α → M α
  | some a => pure a
  | none => raise .nilDereference

/-- The expression `keeper.ShardManagers[SMidx]` followed by a field access. -/
def managerAt (keeper : KeeperRef) (SMidx : Int) : M ShardManager := do
  let k ← load keeper
  let p ← slice k.ShardManagers SMidx
  deref p

/-! ## getter.go -/

/-- The function `getAtIndex` of `getter.go`, statement by statement. -/
def getAtIndex (r : HashRouter) (idx : Int) (key : String) (keeper : KeeperRef) :
    M (String × Bool) := do
  let (SMidx, localIdx) := r.getShardNumberAndIndexPair idx
  -- keeper.ShardManagers[SMidx].mutex.RLock()
  let _ ← managerAt keeper SMidx
  RLock (.manager keeper SMidx.toNat)
  let k ← load keeper
  if SMidx ≥ (k.ShardManagers.length : Int) then
    -- keeper.ShardManagers[SMidx].mutex.RUnlock(); return "NaN", false
    let _ ← managerAt keeper SMidx
    RUnlock (.manager keeper SMidx.toNat)
    return ("NaN", false)
  else
    -- targetSM := keeper.ShardManagers[SMidx]
    let targetSM ← managerAt keeper SMidx
    -- keeper.ShardManagers[SMidx].mutex.RUnlock()
    let _ ← managerAt keeper SMidx
    RUnlock (.manager keeper SMidx.toNat)
    -- targetSM.mutex.RLock(); target := targetSM.Shards[localIdx]; targetSM.mutex.RUnlock()
    RLock (.manager keeper SMidx.toNat)
    let target ← slice targetSM.Shards localIdx
    RUnlock (.manager keeper SMidx.toNat)
    -- value, ok := target.data.Load(key)
    let sh ← deref target
    match sh.data key with
    | some (.entry e) => return (e.value, true)
    | some .foreign => raise .typeAssertion
    | none => return ("NaN", false)

/-- The function `_getKey` of `getter.go`: the new table first, then the old
one. -/
def _getKey (r : HashRouter) (key : String) : M (String × Bool) := do
  RLock (.keeper .newShardManagerKeeper)
  let kNew ← load .newShardManagerKeeper
  let (ret, found) ← getAtIndex r (r.getKeyHash key kNew) key .newShardManagerKeeper
  RUnlock (.keeper .newShardManagerKeeper)
  if found then
    return (ret, found)
  else
    RLock (.keeper .ShardManagerKeeper)
    let kOld ← load .ShardManagerKeeper
    let (ret, found) ← getAtIndex r (r.getKeyHash key kOld) key .ShardManagerKeeper
    RUnlock (.keeper .ShardManagerKeeper)
    return (ret, found)

/-! ## client/main.go -/

/-- The predicate `unicode.IsSpace` on a code point: the six ASCII spaces,
U+0085, U+00A0 and the code points with the White_Space property. -/
def isSpace (c : Char) : Bool :=
  let n := c.toNat
  (9 ≤ n && n ≤ 13) || n = 32 || n = 133 || n = 160 || n = 5760 ||
    (8192 ≤ n && n ≤ 8202) || n = 8232 || n = 8233 || n = 8239 || n = 8287 || n = 12288

/-- The scan of `strings.Fields`: `cur` is the field being read, last
character first. -/
def fieldsFrom : List Char → List Char → List String
  | [], cur => if cur.isEmpty then [] else [String.mk cur.reverse]
  | c :: cs, cur =>
    if isSpace c then
      if cur.isEmpty then fieldsFrom cs [] else String.mk cur.reverse :: fieldsFrom cs []
    else fieldsFrom cs (c :: cur)

/-- The library function `strings.Fields`: the maximal runs of non-space
characters, in order. -/
def Fields (s : String) : List String := fieldsFrom s.data []

/-- The value of a run of ASCII digits read after `acc`; `none` at the first
character that is not a digit. -/
def digitsValue : List Char → Nat → Option Nat
  | [], acc => some acc
  | c :: cs, acc =>
    if 48 ≤ c.toNat ∧ c.toNat ≤ 57 then digitsValue cs (acc * 10 + (c.toNat - 48)) else none

/-- The library function `strconv.Atoi` with a 64-bit `int`: an optional sign,
then one or more ASCII digits, and a value that fits `int`; `none` is a
non-nil error. -/
def Atoi (s : String) : Option Int :=
  match s.data with
  | [] => none
  | c :: cs =>
    let digits := if c.toNat = 43 ∨ c.toNat = 45 then cs else c :: cs
    if digits.isEmpty then none
    else
      match digitsValue digits 0 with
      | none => none
      | some n =>
        let v : Int := if c.toNat = 45 then -(n : Int) else (n : Int)
        if -(2 : Int) ^ 63 ≤ v ∧ v < (2 : Int) ^ 63 then some v else none

/-- Arithmetic on `int64`: the result of an operation is reduced to the range
from -2^63 to 2^63 - 1. -/
def wrapInt64 (x : Int) : Int := (x + 2 ^ 63) % 2 ^ 64 - 2 ^ 63

/-- The library function `strconv.FormatInt(x, 10)`. -/
def FormatInt (x : Int) : String :=
  if x < 0 then "-" ++ Nat.repr x.natAbs else Nat.repr x.natAbs

/-- What one turn of the input loop does with the line it read. -/
inductive Sent where
  | fatal
  | transmit (message : String)
deriving DecidableEq

/-- One turn of the `for` loop of `main` in `client/main.go`, from the line
read (`input`, with its newline) to the string handed to the encoder; `now` is
`time.Now().Unix()`. -/
def clientTurn (input : String) (now : Int) : Sent :=
  let stringData := Fields input
  let stuff := input
  if stringData.length = 5 then
    match Atoi (stringData.getD 4 "") with
    | none => .fatal
    | some intValue =>
      let fmeBro := FormatInt (wrapInt64 (now + intValue))
      let finalString :=
        (List.range 4).foldl (fun acc i => acc ++ (stringData.getD i "" ++ " ")) ""
      .transmit (finalString ++ fmeBro)
  else .transmit stuff

/-! ## Summaries of the read path, used in the proofs -/

/-- The result of `getAtIndex` read off the keeper it is given. -/
def getAtIndexResult (r : HashRouter) (idx : Int) (key : String)
    (k : ShardManagerKeeperTemp) : Except Fault (String × Bool) :=
  match index? k.ShardManagers (r.getShardNumberAndIndexPair idx).1 with
  | none => .error .indexOutOfRange
  | some none => .error .nilDereference
  | some (some sm) =>
    match index? sm.Shards (r.getShardNumberAndIndexPair idx).2 with
    | none => .error .indexOutOfRange
    | some none => .error .nilDereference
    | some (some sh) =>
      match sh.data key with
      | some (.entry e) => .ok (e.value, true)
      | some .foreign => .error .typeAssertion
      | none => .ok ("NaN", false)

/-- The lock operations of `getAtIndex` read off the keeper it is given. -/
def getAtIndexOps (r : HashRouter) (idx : Int) (keeper : KeeperRef)
    (k : ShardManagerKeeperTemp) : List LockOp :=
  let m := MutexId.manager keeper (r.getShardNumberAndIndexPair idx).1.toNat
  match index? k.ShardManagers (r.getShardNumberAndIndexPair idx).1 with
  | none => []
  | some none => []
  | some (some sm) =>
    match index? sm.Shards (r.getShardNumberAndIndexPair idx).2 with
    | none => [.RLock m, .RUnlock m, .RLock m]
    | some _ => [.RLock m, .RUnlock m, .RLock m, .RUnlock m]

/-- The lock operations of `_getKey` read off the two keepers. -/
def _getKeyOps (r : HashRouter) (key : String) (G : Globals) : List LockOp :=
  let opsNew := getAtIndexOps r (r.getKeyHash key G.newShardManagerKeeper)
    .newShardManagerKeeper G.newShardManagerKeeper
  let opsOld := getAtIndexOps r (r.getKeyHash key G.ShardManagerKeeper)
    .ShardManagerKeeper G.ShardManagerKeeper
  .RLock (.keeper .newShardManagerKeeper) :: opsNew ++
    match getAtIndexResult r (r.getKeyHash key G.newShardManagerKeeper) key
        G.newShardManagerKeeper with
    | .error _ => []
    | .ok (_, true) => [.RUnlock (.keeper .newShardManagerKeeper)]
    | .ok (_, false) =>
      .RUnlock (.keeper .newShardManagerKeeper) :: .RLock (.keeper .ShardManagerKeeper) ::
        opsOld ++
          match getAtIndexResult r (r.getKeyHash key G.ShardManagerKeeper) key
              G.ShardManagerKeeper with
          | .error _ => []
          | .ok _ => [.RUnlock (.keeper .ShardManagerKeeper)]

/-- The mutexes on which a read lock is held after the operations `ops`,
starting with none held; the latest first. -/
def heldLocks (ops : List LockOp) : List MutexId :=
  ops.foldl (fun held op =>
    match op with
    | .RLock m => m :: held
    | .RUnlock m => held.erase m) []

/-- Whether a mutex is the mutex of a keeper (and not of a shard manager). -/
def MutexId.isKeeper : MutexId → Bool
  | .keeper _ => true
  | .manager _ _ => false

/-! ## Sample inputs -/

/-- A router for the samples: the hash is the length of the key modulo four,
and a flat index splits into two managers of two shards. -/
def sampleRouter : HashRouter :=
  { getKeyHash := fun key _ => (key.length : Int) % 4
    getShardNumberAndIndexPair := fun idx => (idx / 2, idx % 2) }

/-- A shard holding the listed pairs. -/
def shardOf (kvs : List (String × Stored)) : Shard :=
  { data := fun k => (kvs.find? (fun p => p.1 == k)).map Prod.snd }

/-- A manager of two shards. -/
def managerOf (a b : List (String × Stored)) : ShardManager :=
  { Shards := [some (shardOf a), some (shardOf b)] }

/-- A keeper of two managers. -/
def keeperOf (m0 m1 : ShardManager) : ShardManagerKeeperTemp :=
  { ShardManagers := [some m0, some m1], totalCapacity := 80, usedCapacity := 0,
    isResizing := 0 }

/-- An entry that expired at time 5. -/
def expiredEntry : Entry := { value := "2", expiresAt := some 5 }

/-- Two generations of two managers by two shards: key `a` is in both with
different values, key `bb` only in the current one, with an expiry of 5. -/
def sampleGlobals : Globals :=
  { ShardManagerKeeper :=
      keeperOf (managerOf [] [("a", .entry ⟨"old", none⟩)])
        (managerOf [("bb", .entry expiredEntry)] [])
    newShardManagerKeeper :=
      keeperOf (managerOf [] [("a", .entry ⟨"new", none⟩)]) (managerOf [] [])
    readers := fun _ => 0 }

/-- The sample store before any sizing call: the next generation still has
its initial value. -/
def sampleGlobalsNoNext : Globals :=
  { sampleGlobals with newShardManagerKeeper := emptyKeeper }

/-! ## Lemmas on the state transformer -/

@[simp] theorem bind_run {α β : Type} (x : M α) (f : α → M β) (G : Globals) :
    (x >>= f) G = M.bind x f G := rfl

@[simp] theorem pure_run {α : Type} (a : α) (G : Globals) :
    (pure a : M α) G = ⟨.ok a, G, []⟩ := rfl

@[simp] theorem keeper_readers (G : Globals) (f : MutexId → Nat) (k : KeeperRef) :
    Globals.keeper { G with readers := f } k = G.keeper k := by
  cases k <;> rfl

theorem index?_lt {α : Type} {xs : List α} {i : Int} {a : α} (h : index? xs i = some a) :
    ¬ ((xs.length : Int) ≤ i) := by
  unfold index? at h
  split at h
  · obtain ⟨hlt, _⟩ := List.getElem?_eq_some.1 h
    omega
  · cases h

theorem index?_none_of_le {α : Type} (xs : List α) (i : Int) (h : (xs.length : Int) ≤ i) :
    index? xs i = none := by
  cases hx : index? xs i with
  | none => rfl
  | some a => exact absurd h (index?_lt hx)

theorem applyOp_unlock_lock (f : MutexId → Nat) (m : MutexId) :
    applyOp (applyOp f (.RLock m)) (.RUnlock m) = f := by
  funext x
  by_cases h : x = m <;> simp [applyOp, Function.update, h]

/-! ## Lemmas on getAtIndex -/

/-- The run of `getAtIndex` in full: its result and lock operations are those
of the summaries, and the state changes in the counters only. -/
theorem getAtIndex_eq (r : HashRouter) (idx : Int) (key : String) (keeper : KeeperRef)
    (G : Globals) :
    getAtIndex r idx key keeper G =
      ⟨getAtIndexResult r idx key (G.keeper keeper),
       { G with readers := (getAtIndexOps r idx keeper (G.keeper keeper)).foldl applyOp G.readers },
       getAtIndexOps r idx keeper (G.keeper keeper)⟩ := by
  cases hm : index? (G.keeper keeper).ShardManagers (r.getShardNumberAndIndexPair idx).1 with
  | none =>
    simp [getAtIndex, getAtIndexResult, getAtIndexOps, managerAt, M.bind, M.pure, raise, load,
      slice, deref, RLock, RUnlock, hm]
  | some p =>
    cases p with
    | none =>
      simp [getAtIndex, getAtIndexResult, getAtIndexOps, managerAt, M.bind, M.pure, raise, load,
        slice, deref, RLock, RUnlock, hm]
    | some sm =>
      have hlt := index?_lt hm
      cases hs : index? sm.Shards (r.getShardNumberAndIndexPair idx).2 with
      | none =>
        simp [getAtIndex, getAtIndexResult, getAtIndexOps, managerAt, M.bind, M.pure, raise, load,
          slice, deref, RLock, RUnlock, hm, hs, hlt]
      | some q =>
        cases q with
        | none =>
          simp [getAtIndex, getAtIndexResult, getAtIndexOps, managerAt, M.bind, M.pure, raise,
            load, slice, deref, RLock, RUnlock, hm, hs, hlt]
        | some sh =>
          cases hd : sh.data key with
          | none =>
            simp [getAtIndex, getAtIndexResult, getAtIndexOps, managerAt, M.bind, M.pure, raise,
              load, slice, deref, RLock, RUnlock, hm, hs, hlt, hd]
          | some v =>
            cases v with
            | entry e =>
              simp [getAtIndex, getAtIndexResult, getAtIndexOps, managerAt, M.bind, M.pure, raise,
                load, slice, deref, RLock, RUnlock, hm, hs, hlt, hd]
            | foreign =>
              simp [getAtIndex, getAtIndexResult, getAtIndexOps, managerAt, M.bind, M.pure, raise,
                load, slice, deref, RLock, RUnlock, hm, hs, hlt, hd]

/-- The lock operations of `getAtIndex` come in three shapes, and only the
last belongs to a run that returns. -/
theorem getAtIndex_shapes (r : HashRouter) (idx : Int) (key : String) (keeper : KeeperRef)
    (k : ShardManagerKeeperTemp) :
    (getAtIndexOps r idx keeper k = [] ∧ ∃ e, getAtIndexResult r idx key k = .error e) ∨
    (getAtIndexOps r idx keeper k =
        [.RLock (.manager keeper (r.getShardNumberAndIndexPair idx).1.toNat),
         .RUnlock (.manager keeper (r.getShardNumberAndIndexPair idx).1.toNat),
         .RLock (.manager keeper (r.getShardNumberAndIndexPair idx).1.toNat)] ∧
      ∃ e, getAtIndexResult r idx key k = .error e) ∨
    getAtIndexOps r idx keeper k =
        [.RLock (.manager keeper (r.getShardNumberAndIndexPair idx).1.toNat),
         .RUnlock (.manager keeper (r.getShardNumberAndIndexPair idx).1.toNat),
         .RLock (.manager keeper (r.getShardNumberAndIndexPair idx).1.toNat),
         .RUnlock (.manager keeper (r.getShardNumberAndIndexPair idx).1.toNat)] := by
  unfold getAtIndexOps getAtIndexResult
  split
  · simp
  · simp
  · split <;> simp_all

/-- A run of `getAtIndex` that returns took and released the manager lock
twice. -/
theorem getAtIndexOps_of_ok (r : HashRouter) (idx : Int) (key : String) (keeper : KeeperRef)
    (k : ShardManagerKeeperTemp) (v : String × Bool)
    (h : getAtIndexResult r idx key k = .ok v) :
    getAtIndexOps r idx keeper k =
      [.RLock (.manager keeper (r.getShardNumberAndIndexPair idx).1.toNat),
       .RUnlock (.manager keeper (r.getShardNumberAndIndexPair idx).1.toNat),
       .RLock (.manager keeper (r.getShardNumberAndIndexPair idx).1.toNat),
       .RUnlock (.manager keeper (r.getShardNumberAndIndexPair idx).1.toNat)] := by
  rcases getAtIndex_shapes r idx key keeper k with ⟨_, e, he⟩ | ⟨_, e, he⟩ | h4
  · rw [he] at h; cases h
  · rw [he] at h; cases h
  · exact h4

/-- The result of `getAtIndex` on an in-range route is the map lookup on the
routed shard. -/
theorem getAtIndexResult_routed (r : HashRouter) (idx : Int) (key : String)
    (k : ShardManagerKeeperTemp) (sm : ShardManager) (sh : Shard)
    (hm : index? k.ShardManagers (r.getShardNumberAndIndexPair idx).1 = some (some sm))
    (hs : index? sm.Shards (r.getShardNumberAndIndexPair idx).2 = some (some sh)) :
    getAtIndexResult r idx key k =
      match sh.data key with
      | some (.entry e) => .ok (e.value, true)
      | some .foreign => .error .typeAssertion
      | none => .ok ("NaN", false) := by
  simp [getAtIndexResult, hm, hs]

/-- The manager slice is indexed before its length is compared: an index
at or beyond the length is a panic. -/
theorem getAtIndex_beyond_managers (r : HashRouter) (idx : Int) (key : String)
    (keeper : KeeperRef) (G : Globals)
    (h : ((G.keeper keeper).ShardManagers.length : Int) ≤ (r.getShardNumberAndIndexPair idx).1) :
    (getAtIndex r idx key keeper G).result = .error .indexOutOfRange := by
  simp [getAtIndex_eq, getAtIndexResult, index?_none_of_le _ _ h]

/-! ## Lemmas on _getKey -/

/-- The result of `_getKey` in terms of the two lookups. -/
theorem _getKey_result (r : HashRouter) (key : String) (G : Globals) :
    (_getKey r key G).result =
      match getAtIndexResult r (r.getKeyHash key G.newShardManagerKeeper) key
          G.newShardManagerKeeper with
      | .error e => .error e
      | .ok (v, true) => .ok (v, true)
      | .ok (_, false) =>
        getAtIndexResult r (r.getKeyHash key G.ShardManagerKeeper) key G.ShardManagerKeeper := by
  cases ha : getAtIndexResult r (r.getKeyHash key G.newShardManagerKeeper) key
      G.newShardManagerKeeper with
  | error e =>
    simp [_getKey, M.bind, getAtIndex_eq, RLock, RUnlock, load, Globals.keeper, ha]
  | ok a =>
    obtain ⟨v, b⟩ := a
    cases b with
    | true => simp [_getKey, M.bind, getAtIndex_eq, RLock, RUnlock, load, Globals.keeper, ha]
    | false =>
      cases hb : getAtIndexResult r (r.getKeyHash key G.ShardManagerKeeper) key
          G.ShardManagerKeeper with
      | error e =>
        simp [_getKey, M.bind, getAtIndex_eq, RLock, RUnlock, load, Globals.keeper, ha, hb]
      | ok w =>
        simp [_getKey, M.bind, getAtIndex_eq, RLock, RUnlock, load, Globals.keeper, ha, hb]

/-- The lock operations of `_getKey` are those of the summary. -/
theorem _getKey_ops (r : HashRouter) (key : String) (G : Globals) :
    (_getKey r key G).ops = _getKeyOps r key G := by
  cases ha : getAtIndexResult r (r.getKeyHash key G.newShardManagerKeeper) key
      G.newShardManagerKeeper with
  | error e =>
    simp [_getKey, _getKeyOps, M.bind, getAtIndex_eq, RLock, RUnlock, load, Globals.keeper, ha]
  | ok a =>
    obtain ⟨v, b⟩ := a
    cases b with
    | true =>
      simp [_getKey, _getKeyOps, M.bind, getAtIndex_eq, RLock, RUnlock, load, Globals.keeper, ha]
    | false =>
      cases hb : getAtIndexResult r (r.getKeyHash key G.ShardManagerKeeper) key
          G.ShardManagerKeeper with
      | error e =>
        simp [_getKey, _getKeyOps, M.bind, getAtIndex_eq, RLock, RUnlock, load, Globals.keeper,
          ha, hb]
      | ok w =>
        simp [_getKey, _getKeyOps, M.bind, getAtIndex_eq, RLock, RUnlock, load, Globals.keeper,
          ha, hb]

/-- The state after `_getKey` differs from the state before in the counters
only, and there by the lock operations performed. -/
theorem _getKey_state (r : HashRouter) (key : String) (G : Globals) :
    (_getKey r key G).state =
      { G with readers := (_getKey r key G).ops.foldl applyOp G.readers } := by
  cases ha : getAtIndexResult r (r.getKeyHash key G.newShardManagerKeeper) key
      G.newShardManagerKeeper with
  | error e =>
    simp [_getKey, M.bind, getAtIndex_eq, RLock, RUnlock, load, Globals.keeper, ha]
  | ok a =>
    obtain ⟨v, b⟩ := a
    cases b with
    | true =>
      simp [_getKey, M.bind, getAtIndex_eq, RLock, RUnlock, load, Globals.keeper, ha]
    | false =>
      cases hb : getAtIndexResult r (r.getKeyHash key G.ShardManagerKeeper) key
          G.ShardManagerKeeper with
      | error e =>
        simp [_getKey, M.bind, getAtIndex_eq, RLock, RUnlock, load, Globals.keeper, ha, hb]
      | ok w =>
        simp [_getKey, M.bind, getAtIndex_eq, RLock, RUnlock, load, Globals.keeper, ha, hb]

/-- The result of `_getKey` does not depend on the counters. -/
theorem _getKey_result_readers (r : HashRouter) (key : String) (G : Globals)
    (f : MutexId → Nat) :
    (_getKey r key { G with readers := f }).result = (_getKey r key G).result := by
  rw [_getKey_result, _getKey_result]

/-- At every moment of a run of `_getKey` at most two read locks are held, at
most one of them on a keeper and at most one on a shard manager. -/
theorem _getKeyOps_peak (r : HashRouter) (key : String) (G : Globals) :
    ∀ p ∈ (_getKeyOps r key G).inits,
      (heldLocks p).length ≤ 2 ∧ (heldLocks p).countP MutexId.isKeeper ≤ 1 ∧
        (heldLocks p).countP (fun m => !m.isKeeper) ≤ 1 := by
  unfold _getKeyOps
  rcases getAtIndex_shapes r (r.getKeyHash key G.newShardManagerKeeper) key
      .newShardManagerKeeper G.newShardManagerKeeper with ⟨ha, e, hr⟩ | ⟨ha, e, hr⟩ | ha
  · simp [ha, hr, heldLocks, MutexId.isKeeper]
  · simp [ha, hr, heldLocks, MutexId.isKeeper]
  · cases hr : getAtIndexResult r (r.getKeyHash key G.newShardManagerKeeper) key
        G.newShardManagerKeeper with
    | error e => simp [ha, hr, heldLocks, MutexId.isKeeper]
    | ok a =>
      obtain ⟨v, b⟩ := a
      cases b with
      | true => simp [ha, hr, heldLocks, MutexId.isKeeper]
      | false =>
        rcases getAtIndex_shapes r (r.getKeyHash key G.ShardManagerKeeper) key
            .ShardManagerKeeper G.ShardManagerKeeper with ⟨hb, e, hq⟩ | ⟨hb, e, hq⟩ | hb
        · simp [ha, hr, hb, hq, heldLocks, MutexId.isKeeper]
        · simp [ha, hr, hb, hq, heldLocks, MutexId.isKeeper]
        · cases hq : getAtIndexResult r (r.getKeyHash key G.ShardManagerKeeper) key
              G.ShardManagerKeeper with
          | error e => simp [ha, hr, hb, hq, heldLocks, MutexId.isKeeper]
          | ok w => simp [ha, hr, hb, hq, heldLocks, MutexId.isKeeper]

/-- A run of `_getKey` that returns leaves every counter as it was and holds
no lock at the end. -/
theorem _getKeyOps_balanced (r : HashRouter) (key : String) (G : Globals)
    (v : String × Bool) (h : (_getKey r key G).result = .ok v) (f : MutexId → Nat) :
    (_getKeyOps r key G).foldl applyOp f = f ∧ heldLocks (_getKeyOps r key G) = [] := by
  rw [_getKey_result] at h
  unfold _getKeyOps
  cases hr : getAtIndexResult r (r.getKeyHash key G.newShardManagerKeeper) key
      G.newShardManagerKeeper with
  | error e => rw [hr] at h; cases h
  | ok a =>
    have ha := getAtIndexOps_of_ok r _ key .newShardManagerKeeper _ a hr
    obtain ⟨w, b⟩ := a
    cases b with
    | true => simp [ha, hr, heldLocks, applyOp_unlock_lock]
    | false =>
      simp only [hr] at h
      have hb := getAtIndexOps_of_ok r _ key .ShardManagerKeeper _ v h
      simp [ha, hr, hb, h, heldLocks, applyOp_unlock_lock]

/-- With no shard manager in the next generation every read panics. -/
theorem _getKey_no_next_managers (r : HashRouter) (key : String) (G : Globals)
    (h : G.newShardManagerKeeper.ShardManagers = []) :
    (_getKey r key G).result = .error .indexOutOfRange := by
  have hi : index? G.newShardManagerKeeper.ShardManagers
      (r.getShardNumberAndIndexPair (r.getKeyHash key G.newShardManagerKeeper)).1 = none := by
    simp [index?, h]
  simp [_getKey_result, getAtIndexResult, hi]

/-! ## Lemmas on the client -/

theorem wrapInt64_of_fits (x : Int) (hlo : -(2 : Int) ^ 63 ≤ x) (hhi : x < (2 : Int) ^ 63) :
    wrapInt64 x = x := by
  unfold wrapInt64
  omega

theorem range_four : List.range 4 = [0, 1, 2, 3] := by decide

/-- The rewriting of a line of five fields whose last field parses. -/
theorem clientTurn_five (input : String) (now : Int) (f0 f1 f2 f3 f4 : String) (ttl : Int)
    (hf : Fields input = [f0, f1, f2, f3, f4]) (ha : Atoi f4 = some ttl) :
    clientTurn input now =
      .transmit (f0 ++ " " ++ f1 ++ " " ++ f2 ++ " " ++ f3 ++ " " ++
        FormatInt (wrapInt64 (now + ttl))) := by
  simp [clientTurn, hf, ha, range_four, String.append_assoc]

/-! ## The claims -/

/-- C1: for every key and every state in which the key routes to an existing
shard of the next generation, `_getKey` takes the lock of newShardManagerKeeper
before anything else; if that shard holds an Entry under the key, `_getKey`
returns the value of that Entry with found = true, whatever ShardManagerKeeper
holds; if that shard holds nothing under the key, `_getKey` returns exactly
what `getAtIndex(getKeyHash(key, current), key, current)` returns. -/
theorem getKey_probes_new_generation_first (r : HashRouter) (key : String) (G : Globals)
    (sm : ShardManager) (sh : Shard)
    (hm : index? G.newShardManagerKeeper.ShardManagers
      (r.getShardNumberAndIndexPair (r.getKeyHash key G.newShardManagerKeeper)).1 = some (some sm))
    (hs : index? sm.Shards
      (r.getShardNumberAndIndexPair (r.getKeyHash key G.newShardManagerKeeper)).2 = some (some sh)) :
    (_getKey r key G).ops.head? = some (.RLock (.keeper .newShardManagerKeeper)) ∧
    (∀ e, sh.data key = some (.entry e) → (_getKey r key G).result = .ok (e.value, true)) ∧
    (sh.data key = none →
      (_getKey r key G).result =
        (getAtIndex r (r.getKeyHash key G.ShardManagerKeeper) key .ShardManagerKeeper G).result) := by
  have hnew := getAtIndexResult_routed r _ key G.newShardManagerKeeper sm sh hm hs
  refine ⟨?_, ?_, ?_⟩
  · rw [_getKey_ops]; simp [_getKeyOps]
  · intro e he
    rw [he] at hnew
    simp [_getKey_result, hnew]
  · intro he
    rw [he] at hnew
    simp [_getKey_result, hnew, getAtIndex_eq, Globals.keeper]

/-- Witness of C1: key `a` is in both sample generations with different
values, and the value of the next generation is returned. -/
theorem getKey_probes_new_generation_first_witness :
    (_getKey sampleRouter "a" sampleGlobals).result = .ok ("new", true) ∧
    (getAtIndex sampleRouter 1 "a" .ShardManagerKeeper sampleGlobals).result =
      .ok ("old", true) :=
  ⟨(getKey_probes_new_generation_first sampleRouter "a" sampleGlobals
      (managerOf [] [("a", .entry ⟨"new", none⟩)]) (shardOf [("a", .entry ⟨"new", none⟩)])
      rfl rfl).2.1 ⟨"new", none⟩ rfl, rfl⟩

/-- C2: when the flat index routes to an existing shard of the generation
(manager index and local index in range), `getAtIndex` returns (v, true) if
that shard holds an Entry with value v under the key, and ("NaN", false), a
normal result, if it holds nothing under the key: it is the map lookup on the
routed shard. -/
theorem getAtIndex_is_map_lookup (r : HashRouter) (idx : Int) (key : String)
    (keeper : KeeperRef) (G : Globals) (sm : ShardManager) (sh : Shard)
    (hm : index? (G.keeper keeper).ShardManagers (r.getShardNumberAndIndexPair idx).1 =
      some (some sm))
    (hs : index? sm.Shards (r.getShardNumberAndIndexPair idx).2 = some (some sh)) :
    (∀ e, sh.data key = some (.entry e) →
      (getAtIndex r idx key keeper G).result = .ok (e.value, true)) ∧
    (sh.data key = none → (getAtIndex r idx key keeper G).result = .ok ("NaN", false)) := by
  have hres := getAtIndexResult_routed r idx key (G.keeper keeper) sm sh hm hs
  constructor
  · intro e he
    rw [he] at hres
    simp [getAtIndex_eq, hres]
  · intro he
    rw [he] at hres
    simp [getAtIndex_eq, hres]

/-- Witness of C2: in the current sample generation key `a` is stored with
value `old`, and key `dddd` routes to a shard that holds nothing. -/
theorem getAtIndex_is_map_lookup_witness :
    (getAtIndex sampleRouter 1 "a" .ShardManagerKeeper sampleGlobals).result =
      .ok ("old", true) ∧
    (getAtIndex sampleRouter 0 "dddd" .ShardManagerKeeper sampleGlobals).result =
      .ok ("NaN", false) :=
  ⟨(getAtIndex_is_map_lookup sampleRouter 1 "a" .ShardManagerKeeper sampleGlobals
      (managerOf [] [("a", .entry ⟨"old", none⟩)]) (shardOf [("a", .entry ⟨"old", none⟩)])
      rfl rfl).1 ⟨"old", none⟩ rfl,
   (getAtIndex_is_map_lookup sampleRouter 0 "dddd" .ShardManagerKeeper sampleGlobals
      (managerOf [] [("a", .entry ⟨"old", none⟩)]) (shardOf []) rfl rfl).2 rfl⟩

/-- C3, as stated, fails: key `bb` of the sample store has an Entry that
expired at time 5; at probe time 6 (no clock is read, so at any probe time)
both `getAtIndex` and `_getKey` return its value with found = true. -/
theorem expired_entry_is_still_found :
    (shardOf [("bb", .entry expiredEntry)]).data "bb" = some (.entry expiredEntry) ∧
    expiredEntry.expiresAt = some 5 ∧ (5 : Int) < 6 ∧
    (getAtIndex sampleRouter 2 "bb" .ShardManagerKeeper sampleGlobals).result =
      .ok ("2", true) ∧
    (_getKey sampleRouter "bb" sampleGlobals).result = .ok ("2", true) ∧
    ¬ ∃ v, (_getKey sampleRouter "bb" sampleGlobals).result = .ok (v, false) := by
  refine ⟨rfl, rfl, by decide, rfl, rfl, ?_⟩
  rintro ⟨v, hv⟩
  have h : (_getKey sampleRouter "bb" sampleGlobals).result = .ok ("2", true) := rfl
  rw [h] at hv
  cases hv

/-- C3, amended: the read path has no expiry check. For every key whose
Entry in the routed shard has value v and expiry timestamp t, and for every
probe time after t, `getAtIndex` returns (v, true) as long as the Entry is
physically present. -/
theorem getAtIndex_ignores_expiry (r : HashRouter) (idx : Int) (key : String)
    (keeper : KeeperRef) (G : Globals) (sm : ShardManager) (sh : Shard) (e : Entry)
    (t now : Int)
    (hm : index? (G.keeper keeper).ShardManagers (r.getShardNumberAndIndexPair idx).1 =
      some (some sm))
    (hs : index? sm.Shards (r.getShardNumberAndIndexPair idx).2 = some (some sh))
    (he : sh.data key = some (.entry e)) (_ht : e.expiresAt = some t) (_hnow : t < now) :
    (getAtIndex r idx key keeper G).result = .ok (e.value, true) := by
  have hres := getAtIndexResult_routed r idx key (G.keeper keeper) sm sh hm hs
  rw [he] at hres
  simp [getAtIndex_eq, hres]

/-- Witness of the amended C3 on the expired sample entry at probe time 6. -/
theorem getAtIndex_ignores_expiry_witness :
    (getAtIndex sampleRouter 2 "bb" .ShardManagerKeeper sampleGlobals).result =
      .ok (expiredEntry.value, true) :=
  getAtIndex_ignores_expiry sampleRouter 2 "bb" .ShardManagerKeeper sampleGlobals
    (managerOf [("bb", .entry expiredEntry)] []) (shardOf [("bb", .entry expiredEntry)])
    expiredEntry 5 6 rfl rfl rfl rfl (by decide)

/-- C4 on the code: with the next generation at its initial value (no shard
manager) and key `a` present in the current generation, `_getKey` panics with
an index out of range instead of returning the current value. -/
theorem getKey_fails_on_empty_next_generation :
    sampleGlobalsNoNext.newShardManagerKeeper.ShardManagers.length = 0 ∧
    (getAtIndex sampleRouter 1 "a" .ShardManagerKeeper sampleGlobalsNoNext).result =
      .ok ("old", true) ∧
    (_getKey sampleRouter "a" sampleGlobalsNoNext).result = .error .indexOutOfRange :=
  ⟨rfl, rfl, rfl⟩

/-- C5 on the code: flat index 4 has manager index 2, the sample generation
has two managers, and `getAtIndex` panics with an index out of range instead
of returning ("NaN", false). -/
theorem getAtIndex_fails_beyond_last_manager :
    (sampleRouter.getShardNumberAndIndexPair 4).1 = 2 ∧
    sampleGlobals.ShardManagerKeeper.ShardManagers.length = 2 ∧
    (getAtIndex sampleRouter 4 "a" .ShardManagerKeeper sampleGlobals).result =
      .error .indexOutOfRange :=
  ⟨rfl, rfl, rfl⟩

/-- C6, as stated, fails: at Unix time 1700000000 the line
`SET k v EX 9223372036854775807` has five fields and a fifth field that
`Atoi` accepts, and the message sent ends in the wrapped sum
-9223372035154775809, not in the decimal of now + ttl. -/
theorem clientTurn_wraps_large_ttl :
    Fields "SET k v EX 9223372036854775807\n" =
      ["SET", "k", "v", "EX", "9223372036854775807"] ∧
    Atoi "9223372036854775807" = some 9223372036854775807 ∧
    clientTurn "SET k v EX 9223372036854775807\n" 1700000000 =
      .transmit "SET k v EX -9223372035154775809" ∧
    clientTurn "SET k v EX 9223372036854775807\n" 1700000000 ≠
      .transmit ("SET" ++ " " ++ "k" ++ " " ++ "v" ++ " " ++ "EX" ++ " " ++
        FormatInt (1700000000 + 9223372036854775807)) := by
  decide

/-- C6, amended: for every input line that splits into exactly five fields
f0..f4 where f4 parses as an integer ttl, and for current Unix time now with
now + ttl in the range of int64, the message sent is exactly
f0 + " " + f1 + " " + f2 + " " + f3 + " " + decimal(now + ttl). -/
theorem clientTurn_rewrites_five_fields (input : String) (now : Int)
    (f0 f1 f2 f3 f4 : String) (ttl : Int)
    (hf : Fields input = [f0, f1, f2, f3, f4]) (ha : Atoi f4 = some ttl)
    (hlo : -(2 : Int) ^ 63 ≤ now + ttl) (hhi : now + ttl < (2 : Int) ^ 63) :
    clientTurn input now =
      .transmit (f0 ++ " " ++ f1 ++ " " ++ f2 ++ " " ++ f3 ++ " " ++ FormatInt (now + ttl)) := by
  rw [clientTurn_five input now f0 f1 f2 f3 f4 ttl hf ha, wrapInt64_of_fits _ hlo hhi]

/-- Witness of the amended C6: a ttl of 10 seconds at Unix time 1700000000. -/
theorem clientTurn_rewrites_five_fields_witness :
    clientTurn "SET k v EX 10\n" 1700000000 =
      .transmit ("SET" ++ " " ++ "k" ++ " " ++ "v" ++ " " ++ "EX" ++ " " ++
        FormatInt (1700000000 + 10)) :=
  clientTurn_rewrites_five_fields "SET k v EX 10\n" 1700000000 "SET" "k" "v" "EX" "10" 10
    (by decide) (by decide) (by decide) (by decide)

/-- C7: for every input line whose number of whitespace-separated fields is
not five, the message sent is the input line exactly as read. -/
theorem clientTurn_passes_other_lines (input : String) (now : Int)
    (h : (Fields input).length ≠ 5) :
    clientTurn input now = .transmit input := by
  simp [clientTurn, h]

/-- Witness of C7: a line of two fields goes out with its blanks and newline. -/
theorem clientTurn_passes_other_lines_witness :
    clientTurn "GET  k\n" 1700000000 = .transmit "GET  k\n" :=
  clientTurn_passes_other_lines "GET  k\n" 1700000000 (by decide)

/-- C8: lock balance of `_getKey`. At no moment of the call are more than two
read locks held, at most one on a keeper and at most one on a shard manager;
and when the call returns, every counter of the table equals its value before
the call and no lock is held. The same balance holds for a call of
`getAtIndex` that returns. -/
theorem getKey_lock_balance (r : HashRouter) (key : String) (G : Globals) :
    (∀ p, p <+: (_getKey r key G).ops →
      (heldLocks p).length ≤ 2 ∧ (heldLocks p).countP MutexId.isKeeper ≤ 1 ∧
        (heldLocks p).countP (fun m => !m.isKeeper) ≤ 1) ∧
    (∀ v, (_getKey r key G).result = .ok v →
      (_getKey r key G).state.readers = G.readers ∧ heldLocks (_getKey r key G).ops = []) ∧
    (∀ idx keeper w, (getAtIndex r idx key keeper G).result = .ok w →
      (getAtIndex r idx key keeper G).state.readers = G.readers ∧
      heldLocks (getAtIndex r idx key keeper G).ops = []) := by
  refine ⟨?_, ?_, ?_⟩
  · intro p hp
    rw [_getKey_ops] at hp
    exact _getKeyOps_peak r key G p ((List.mem_inits _ _).2 hp)
  · intro v hv
    have hb := _getKeyOps_balanced r key G v hv G.readers
    rw [_getKey_state, _getKey_ops]
    exact ⟨hb.1, hb.2⟩
  · intro idx keeper w hw
    rw [getAtIndex_eq] at hw
    have ho := getAtIndexOps_of_ok r idx key keeper (G.keeper keeper) w hw
    rw [getAtIndex_eq]
    simp [ho, heldLocks, applyOp_unlock_lock]

/-- Witness of C8: the read of key `bb` in the sample store holds two locks
after its second lock operation and leaves the counters as they were. -/
theorem getKey_lock_balance_witness :
    (heldLocks ((_getKey sampleRouter "bb" sampleGlobals).ops.take 2)).length ≤ 2 ∧
    heldLocks ((_getKey sampleRouter "bb" sampleGlobals).ops.take 2) =
      [.manager .newShardManagerKeeper 1, .keeper .newShardManagerKeeper] ∧
    (_getKey sampleRouter "bb" sampleGlobals).ops.length = 12 ∧
    (_getKey sampleRouter "bb" sampleGlobals).state.readers = sampleGlobals.readers :=
  ⟨((getKey_lock_balance sampleRouter "bb" sampleGlobals).1 _ (List.take_prefix 2 _)).1,
   rfl, rfl,
   ((getKey_lock_balance sampleRouter "bb" sampleGlobals).2.1 ("2", true) rfl).1⟩

/-- C9: `_getKey` is read-only. After the call both keepers are what they
were (shard managers, shards, contents, totalCapacity, usedCapacity and
isResizing); when the call returns the whole state is what it was, and a
second call for the same key returns the same result. -/
theorem getKey_read_only (r : HashRouter) (key : String) (G : Globals) :
    (_getKey r key G).state.ShardManagerKeeper = G.ShardManagerKeeper ∧
    (_getKey r key G).state.newShardManagerKeeper = G.newShardManagerKeeper ∧
    (∀ v, (_getKey r key G).result = .ok v →
      (_getKey r key G).state = G ∧
      (_getKey r key (_getKey r key G).state).result = .ok v) := by
  refine ⟨?_, ?_, ?_⟩
  · rw [_getKey_state]
  · rw [_getKey_state]
  · intro v hv
    have hb := (_getKeyOps_balanced r key G v hv G.readers).1
    have hst : (_getKey r key G).state = G := by
      rw [_getKey_state, _getKey_ops, hb]
    exact ⟨hst, by rw [hst]; exact hv⟩

/-- Witness of C9: the read of key `a` in the sample store. -/
theorem getKey_read_only_witness :
    (_getKey sampleRouter "a" sampleGlobals).state = sampleGlobals ∧
    (_getKey sampleRouter "a" (_getKey sampleRouter "a" sampleGlobals).state).result =
      .ok ("new", true) :=
  (getKey_read_only sampleRouter "a" sampleGlobals).2.2 ("new", true) rfl

/-- C10: for every input line with exactly five fields the client fails
fatally if and only if `Atoi` rejects the fifth field; when `Atoi` accepts it
the rewritten line is sent; and a line with any other number of fields never
fails. -/
theorem clientTurn_fatal_iff_bad_ttl (input : String) (now : Int) :
    (∀ f0 f1 f2 f3 f4, Fields input = [f0, f1, f2, f3, f4] →
      (clientTurn input now = .fatal ↔ Atoi f4 = none) ∧
      (∀ ttl, Atoi f4 = some ttl →
        clientTurn input now =
          .transmit (f0 ++ " " ++ f1 ++ " " ++ f2 ++ " " ++ f3 ++ " " ++
            FormatInt (wrapInt64 (now + ttl))))) ∧
    ((Fields input).length ≠ 5 → clientTurn input now ≠ .fatal) := by
  constructor
  · intro f0 f1 f2 f3 f4 hf
    constructor
    · cases ha : Atoi f4 with
      | none => simp [clientTurn, hf, ha]
      | some ttl => simp [clientTurn_five input now f0 f1 f2 f3 f4 ttl hf ha]
    · intro ttl ha
      exact clientTurn_five input now f0 f1 f2 f3 f4 ttl hf ha
  · intro h
    simp [clientTurn, h]

/-- Witness of C10: a fifth field `1x` is fatal, a fifth field `10` is not. -/
theorem clientTurn_fatal_iff_bad_ttl_witness :
    clientTurn "SET k v EX 1x\n" 1700000000 = .fatal ∧
    clientTurn "SET k v EX 10\n" 1700000000 = .transmit "SET k v EX 1700000010" :=
  ⟨(((clientTurn_fatal_iff_bad_ttl "SET k v EX 1x\n" 1700000000).1
      "SET" "k" "v" "EX" "1x" (by decide)).1).2 (by decide),
   ((clientTurn_fatal_iff_bad_ttl "SET k v EX 10\n" 1700000000).1
      "SET" "k" "v" "EX" "10" (by decide)).2 10 (by decide)⟩

end NubMQ
